import Mathlib

/-!
Shallow embedding of the packaging script `setup.py` of the anomalib
repository, together with theorems settling the specification claims.

Python strings are modelled as lists of characters (`PyStr`).  The two
pieces of the script that the claims are about are

* `get_required_packages`, which reads requirement files and collects the
  non-blank, non-comment, non-flag lines, and

* the module-level `cv2` reconciliation block (modelled as `reconcile`),
  which probes for an installed OpenCV, compares versions and either
  raises, removes the requirement, or leaves the list alone.

File contents and the file system are passed in explicitly: a requirement
file's text is a list of lines, and the `requirements/` directory is a
function from category name to an optional list of lines (`none` meaning
the file does not exist, in which case Python's `open` raises).
-/

set_option autoImplicit false

/-- Python strings are modelled as lists of characters. -/
abbrev PyStr := List Char

/-- Coerce a Lean string literal to the `PyStr` model. -/
def lit (s : String) : PyStr := s.data

/-- The whitespace set of Python's `str.strip()`, restricted to the ASCII
range: exactly the ASCII characters for which `str.isspace()` holds
(space, tab, newline, carriage return, vertical tab, form feed, and the
separator control characters 1C-1F).  The few non-ASCII whitespace
characters are outside the fragment modelled here. -/
def pyIsSpace (c : Char) : Bool :=
  c = ' ' || c = '\t' || c = '\n' || c = '\r' || c = '\x0b' || c = '\x0c' ||
    c = '\x1c' || c = '\x1d' || c = '\x1e' || c = '\x1f'

/-- The whitespace set Python's `int()` skips around its argument,
restricted to the ASCII range: space, tab, newline, carriage return,
vertical tab and form feed.  Unlike `str.strip()`, `int()` does not
treat the separator control characters 1C-1F as whitespace. -/
def intIsSpace (c : Char) : Bool :=
  c = ' ' || c = '\t' || c = '\n' || c = '\r' || c = '\x0b' || c = '\x0c'

/-- Drop leading and trailing characters satisfying `p`. -/
def stripWith (p : Char → Bool) (s : PyStr) : PyStr :=
  ((s.dropWhile p).reverse.dropWhile p).reverse

/-- Python `str.strip()`: drop leading and trailing whitespace. -/
def pyStrip (s : PyStr) : PyStr :=
  stripWith pyIsSpace s

/-- The stripping `int()` performs on its argument before parsing. -/
def intStrip (s : PyStr) : PyStr :=
  stripWith intIsSpace s

/-- Python `s.split(".")`: split on every occurrence of the dot, keeping
empty segments; the result is always non-empty. -/
def splitDot : List Char → List (List Char)
  | [] => [[]]
  | c :: rest =>
    if c = '.' then [] :: splitDot rest
    else
      match splitDot rest with
      | [] => [[c]]
      | h :: t => (c :: h) :: t

/-- Python `s.split(">=")`: split on every occurrence of the two-character
separator, scanning left to right; the result is always non-empty. -/
def splitGe : List Char → List (List Char)
  | [] => [[]]
  | '>' :: '=' :: rest => [] :: splitGe rest
  | c :: rest =>
    match splitGe rest with
    | [] => [[c]]
    | h :: t => (c :: h) :: t

/-- Valid digit run for Python `int`, PEP 515 included: a non-empty
sequence of decimal digits in which single underscores may appear, but
only strictly between digits (no leading, trailing or doubled
underscore). -/
def digitsUnd : List Char → Bool
  | [] => false
  | [c] => c.isDigit
  | c :: d :: rest =>
    c.isDigit && (if d = '_' then digitsUnd rest else digitsUnd (d :: rest))

/-- Numeric value of a digit run, ignoring the PEP 515 underscores. -/
def digitsVal (ds : List Char) : Nat :=
  (ds.filter (fun c => c != '_')).foldl (fun a c => 10 * a + (c.toNat - 48)) 0

/-- Interpret a character list as a natural number the way Python's `int`
reads the part after the optional sign: a non-empty digit run with
PEP 515 underscore grouping; `none` models the `ValueError` raised
otherwise. -/
def digitsToNat (ds : List Char) : Option Nat :=
  if digitsUnd ds then some (digitsVal ds) else none

/-- Python `int(s)` on the ASCII fragment: surrounding whitespace is
stripped, an optional sign is allowed, and the rest must be a non-empty
run of decimal digits with PEP 515 underscore grouping; `none` models the
`ValueError` raised on any other input.  On strings of ASCII characters
this agrees with CPython's `int` exactly; non-ASCII decimal digits
(which CPython also accepts) are outside the modelled fragment, which is
why the crash conditions below carry an `isAscii` hypothesis. -/
def pyInt (s : PyStr) : Option Int :=
  match intStrip s with
  | [] => none
  | c :: ds =>
    if c = '+' then (digitsToNat ds).map Int.ofNat
    else if c = '-' then (digitsToNat ds).map (fun n => -(n : Int))
    else (digitsToNat (c :: ds)).map Int.ofNat

/-- True when every character of the string is ASCII.  On such strings
`pyStrip` and `pyInt` model Python's `str.strip()` and `int()` exactly,
so the crash conditions stated over `pyInt ... = none` are qualified by
this predicate. -/
def isAscii (s : PyStr) : Bool :=
  s.all (fun c => c.toNat < 128)

/-- Python `list.remove(x)`: delete the first occurrence of `x`.  In the
script the removed element is always the one just found by `next`, so the
`ValueError` Python raises on a missing element is unreachable and the
missing case is modelled as the identity. -/
def pyRemove (l : List PyStr) (x : PyStr) : List PyStr :=
  match l with
  | [] => []
  | a :: rest => if a = x then rest else a :: pyRemove rest x

/-- The filter applied to each stripped line by `get_required_packages`:
Python's `if package and not package.startswith(("#", "-f"))`. -/
def keepLine (package : PyStr) : Bool :=
  !package.isEmpty &&
    !((lit "#").isPrefixOf package || (lit "-f").isPrefixOf package)

/-- One iteration of the inner loop of `get_required_packages`: strip the
line and append it to the accumulator when it survives the filter. -/
def addLine (acc : List PyStr) (line : PyStr) : List PyStr :=
  if keepLine (pyStrip line) then acc ++ [pyStrip line] else acc

/-- The inner loop of `get_required_packages` over one file's lines. -/
def processInto (acc : List PyStr) (lines : List PyStr) : List PyStr :=
  lines.foldl addLine acc

/-- The outer loop of `get_required_packages`: open each named file
(`none` models the uncaught exception from a missing file, which aborts
everything) and run the inner loop, threading the accumulator. -/
def collectAux (env : String → Option (List PyStr)) (acc : List PyStr) :
    List String → Option (List PyStr)
  | [] => some acc
  | f :: fs =>
    match env f with
    | none => none
    | some lines => collectAux env (processInto acc lines) fs

/-- `get_required_packages(requirement_files)` from `setup.py`, with the
file system passed in as `env` (category name to optional file lines). -/
def get_required_packages (env : String → Option (List PyStr))
    (requirement_files : List String) : Option (List PyStr) :=
  collectAux env [] requirement_files

/-- Declarative form of the per-file processing: the stripped lines that
survive the filter, in file order. -/
def processFile (lines : List PyStr) : List PyStr :=
  (lines.map pyStrip).filter keepLine

/-- Errors the reconciliation block can raise past the `except ImportError`
handler: `ValueError` (from tuple unpacking or `int` conversion) and the
explicit `RuntimeError` with its message. -/
inductive PyError : Type where
  | valueError : PyError
  | runtimeError : PyStr → PyError
deriving DecidableEq

/-- The matched requirement entry: the script's
`next((req for req in INSTALL_REQUIRES if req.startswith("opencv-python")), None)`. -/
def findOpencv (reqs : List PyStr) : Option PyStr :=
  reqs.find? (fun req => (lit "opencv-python").isPrefixOf req)

/-- The module-level `try: import cv2 ... except ImportError` block of
`setup.py`.  `cv2Version` is `none` when `import cv2` raises
`ImportError` (the only caught exception) and `some v` when the import
succeeds with `cv2.__version__ = v`.  The result is either an uncaught
error or the final `INSTALL_REQUIRES` list paired with the list of
printed messages.  Evaluation order follows the source: the installed
version is unpacked first, the comparison `int(major) < int(req_major)
and int(minor) < int(req_minor)` short-circuits, and the removal happens
after the print. -/
def reconcile (cv2Version : Option PyStr) (installRequires : List PyStr) :
    Except PyError (List PyStr × List PyStr) :=
  match cv2Version with
  | none => .ok (installRequires, [lit "Installing OpenCV since no installation was found"])
  | some v =>
    match splitDot v with
    | major :: minor :: _rest =>
      match findOpencv installRequires with
      | none => .ok (installRequires, [])
      | some opencv_base =>
        match splitDot ((splitGe opencv_base).getLastD []) with
        | req_major :: req_minor :: _req_rest =>
          match pyInt major with
          | none => .error .valueError
          | some m =>
            match pyInt req_major with
            | none => .error .valueError
            | some rm =>
              if m < rm then
                match pyInt minor with
                | none => .error .valueError
                | some n =>
                  match pyInt req_minor with
                  | none => .error .valueError
                  | some rn =>
                    if n < rn then
                      .error (.runtimeError
                        (lit "OpenCV >=" ++ req_major ++ lit "." ++ req_minor ++
                          lit " is required but " ++ v ++ lit " is installed"))
                    else
                      .ok (pyRemove installRequires opencv_base,
                        [lit "Removing OpenCV requirement since it was found"])
              else
                .ok (pyRemove installRequires opencv_base,
                  [lit "Removing OpenCV requirement since it was found"])
        | _ => .error .valueError
    | _ => .error .valueError

/-- Modelled from the spec's words, not from the source: the installed
version tuple "meets the minimum" when, read as tuples of integers, the
installed tuple is lexicographically at least the required tuple.  Used
only to compare the spec's notion of adequacy with what the code does. -/
def specTupleLt : List Int → List Int → Bool
  | [], [] => false
  | [], _ :: _ => true
  | _ :: _, [] => false
  | a :: as, b :: bs => a < b || (a == b && specTupleLt as bs)

/-- Modelled from the spec's words: the dot-separated integer version
tuple of a version string, when every segment parses. -/
def specVersionTuple (v : PyStr) : Option (List Int) :=
  (splitDot v).mapM pyInt

/-- Modelled from the spec's words: the installed version meets the
declared minimum when both tuples parse and the installed one is not
lexicographically below the required one. -/
def specMeetsMinimum (installed required : PyStr) : Bool :=
  match specVersionTuple installed, specVersionTuple required with
  | some a, some b => !(specTupleLt a b)
  | _, _ => false

/-- Concrete file system in which every category file exists, used to
instantiate hypotheses of the theorems below on concrete inputs. -/
def env0 : String → Option (List PyStr) :=
  fun _ => some [lit "numpy>=1.0", lit "# a comment", lit ""]

/-- Concrete file system in which no category file exists. -/
def envMissing : String → Option (List PyStr) := fun _ => none


/-! ### Lemmas about the requirement collector -/

lemma processInto_eq (lines : List PyStr) :
    ∀ acc : List PyStr, processInto acc lines = acc ++ processFile lines := by
  induction lines with
  | nil => intro acc; simp [processInto, processFile]
  | cons l ls ih =>
    intro acc
    have e1 : processInto acc (l :: ls) = processInto (addLine acc l) ls := rfl
    rw [e1, ih (addLine acc l)]
    by_cases h : keepLine (pyStrip l) <;>
      simp [addLine, h, processFile, List.filter_cons]

lemma collectAux_ne_nil_acc (env : String → Option (List PyStr)) (files : List String) :
    ∀ acc : List PyStr,
      collectAux env acc files = (collectAux env [] files).map (acc ++ ·) := by
  induction files with
  | nil => intro acc; simp [collectAux]
  | cons f fs ih =>
    intro acc
    simp only [collectAux]
    cases h : env f with
    | none => simp
    | some lines =>
      dsimp only
      rw [ih (processInto acc lines), ih (processInto [] lines)]
      cases collectAux env [] fs <;>
        simp [processInto_eq, List.append_assoc]

lemma collect_append (env : String → Option (List PyStr)) (xs ys : List String) :
    get_required_packages env (xs ++ ys) =
      (get_required_packages env xs).bind
        (fun a => (get_required_packages env ys).map (a ++ ·)) := by
  unfold get_required_packages
  induction xs with
  | nil =>
    simp only [List.nil_append, collectAux]
    cases collectAux env [] ys <;> simp
  | cons f fs ih =>
    simp only [List.cons_append, collectAux]
    cases h : env f with
    | none => simp
    | some lines =>
      dsimp only
      rw [List.append_eq,
          collectAux_ne_nil_acc env (fs ++ ys) (processInto [] lines),
          collectAux_ne_nil_acc env fs (processInto [] lines), ih]
      cases hx : collectAux env [] fs with
      | none => simp
      | some a =>
        cases hy : collectAux env [] ys <;> simp [List.append_assoc]

lemma collectAux_missing (env : String → Option (List PyStr)) :
    ∀ (files : List String) (acc : List PyStr),
      (∃ f ∈ files, env f = none) → collectAux env acc files = none := by
  intro files
  induction files with
  | nil => intro acc h; simp at h
  | cons f fs ih =>
    intro acc h
    simp only [collectAux]
    cases hf : env f with
    | none => rfl
    | some lines =>
      obtain ⟨g, hg, hgnone⟩ := h
      rcases List.mem_cons.mp hg with rfl | hmem
      · rw [hf] at hgnone; cases hgnone
      · exact ih _ ⟨g, hmem, hgnone⟩

lemma collect_isSome (env : String → Option (List PyStr)) :
    ∀ (files : List String) (acc : List PyStr),
      (∀ f ∈ files, (env f).isSome) → ∃ r, collectAux env acc files = some r := by
  intro files
  induction files with
  | nil => intro acc _; exact ⟨acc, rfl⟩
  | cons f fs ih =>
    intro acc h
    have hf : (env f).isSome := h f (List.mem_cons_self f fs)
    simp only [collectAux]
    cases hfe : env f with
    | none => rw [hfe] at hf; cases hf
    | some lines =>
      exact ih _ (fun g hg => h g (List.mem_cons_of_mem f hg))

lemma keepLine_eq (p : PyStr) :
    keepLine p =
      (!p.isEmpty && !((lit "#").isPrefixOf p) && !((lit "-f").isPrefixOf p)) := by
  simp [keepLine, Bool.and_assoc]

/-- C4: for every requirement-file content, get_required_packages returns
exactly the stripped lines that are non-empty and start with neither "#"
nor "-f", in file order; consequently every element of the returned list
is non-empty and starts with neither marker. -/
theorem C4_collect_is_filtered (env : String → Option (List PyStr)) (name : String)
    (lines : List PyStr) (h : env name = some lines) :
    get_required_packages env [name] =
      some ((lines.map pyStrip).filter
        (fun p => !p.isEmpty && !((lit "#").isPrefixOf p) && !((lit "-f").isPrefixOf p))) ∧
    ∀ r, get_required_packages env [name] = some r →
      ∀ p ∈ r, p ≠ [] ∧
        (lit "#").isPrefixOf p = false ∧ (lit "-f").isPrefixOf p = false := by
  have hfilter : (lines.map pyStrip).filter keepLine =
      (lines.map pyStrip).filter
        (fun p => !p.isEmpty && !((lit "#").isPrefixOf p) && !((lit "-f").isPrefixOf p)) := by
    apply List.filter_congr
    intro p _
    exact keepLine_eq p
  have hmain : get_required_packages env [name] =
      some ((lines.map pyStrip).filter
        (fun p => !p.isEmpty && !((lit "#").isPrefixOf p) && !((lit "-f").isPrefixOf p))) := by
    unfold get_required_packages collectAux
    rw [h]
    dsimp only
    rw [show collectAux env (processInto [] lines) [] = some (processInto [] lines) from rfl,
        processInto_eq lines []]
    simp only [List.nil_append]
    rw [show processFile lines = (lines.map pyStrip).filter keepLine from rfl, hfilter]
  refine ⟨hmain, ?_⟩
  intro r hr p hp
  rw [hmain] at hr
  injection hr with hr
  subst hr
  have hmem := List.mem_filter.mp hp
  have hprop := hmem.2
  simp only [Bool.and_eq_true, Bool.not_eq_true'] at hprop
  obtain ⟨⟨hne, h1⟩, h2⟩ := hprop
  refine ⟨?_, h1, h2⟩
  intro hnil
  subst hnil
  simp at hne

/-- C4 witness: the theorem applied to a concrete file system and file. -/
theorem C4_witness :
    get_required_packages env0 ["installer"] =
      some ((([lit "numpy>=1.0", lit "# a comment", lit ""]).map pyStrip).filter
        (fun p => !p.isEmpty && !((lit "#").isPrefixOf p) && !((lit "-f").isPrefixOf p))) ∧
    ∀ r, get_required_packages env0 ["installer"] = some r →
      ∀ p ∈ r, p ≠ [] ∧
        (lit "#").isPrefixOf p = false ∧ (lit "-f").isPrefixOf p = false :=
  C4_collect_is_filtered env0 "installer" [lit "numpy>=1.0", lit "# a comment", lit ""] rfl

/-- C5: with the requirement files fixed, collecting over a concatenation
of category lists is collecting each and appending, duplicates preserved;
hence the full extra is the loggers list, then notebooks, then openvino. -/
theorem C5_collect_append_hom (env : String → Option (List PyStr)) (xs ys : List String)
    (h : ∀ nm ∈ xs ++ ys, (env nm).isSome) :
    (∃ a b, get_required_packages env xs = some a ∧
        get_required_packages env ys = some b ∧
        get_required_packages env (xs ++ ys) = some (a ++ b)) ∧
    (∀ la lb lc, get_required_packages env ["loggers"] = some la →
        get_required_packages env ["notebooks"] = some lb →
        get_required_packages env ["openvino"] = some lc →
        get_required_packages env ["loggers", "notebooks", "openvino"] =
          some (la ++ lb ++ lc)) := by
  constructor
  · obtain ⟨a, ha⟩ :=
      collect_isSome env xs [] (fun f hf => h f (List.mem_append_left ys hf))
    obtain ⟨b, hb⟩ :=
      collect_isSome env ys [] (fun f hf => h f (List.mem_append_right xs hf))
    refine ⟨a, b, ha, hb, ?_⟩
    rw [collect_append]
    simp only [get_required_packages] at *
    rw [ha, hb]
    rfl
  · intro la lb lc hla hlb hlc
    have h1 : get_required_packages env (["notebooks"] ++ ["openvino"]) =
        some (lb ++ lc) := by
      rw [collect_append, hlb, hlc]
      rfl
    have h2 : get_required_packages env (["loggers"] ++ ["notebooks", "openvino"]) =
        some (la ++ (lb ++ lc)) := by
      rw [collect_append, hla]
      rw [show (["notebooks", "openvino"] : List String) =
        ["notebooks"] ++ ["openvino"] from rfl, h1]
      rfl
    simpa [List.append_assoc] using h2

/-- C5 witness: the theorem applied to a concrete file system. -/
theorem C5_witness :
    (∃ a b, get_required_packages env0 ["loggers"] = some a ∧
        get_required_packages env0 ["notebooks"] = some b ∧
        get_required_packages env0 (["loggers"] ++ ["notebooks"]) = some (a ++ b)) ∧
    (∀ la lb lc, get_required_packages env0 ["loggers"] = some la →
        get_required_packages env0 ["notebooks"] = some lb →
        get_required_packages env0 ["openvino"] = some lc →
        get_required_packages env0 ["loggers", "notebooks", "openvino"] =
          some (la ++ lb ++ lc)) :=
  C5_collect_append_hom env0 ["loggers"] ["notebooks"] (by decide)

/-- C8: when some named requirement file does not exist, the collection
fails (the exception is uncaught) and no partial list is produced. -/
theorem C8_missing_file_aborts (env : String → Option (List PyStr)) (names : List String)
    (h : ∃ nm ∈ names, env nm = none) :
    get_required_packages env names = none :=
  collectAux_missing env names [] h

/-- C8 witness: the theorem applied to a file system missing a file. -/
theorem C8_witness :
    envMissing "installer" = none ∧
    get_required_packages envMissing ["installer"] = none :=
  ⟨rfl, C8_missing_file_aborts envMissing ["installer"]
    ⟨"installer", List.mem_cons_self _ _, rfl⟩⟩

/-! ### Lemmas about the version-string primitives -/

lemma splitDot_ne_nil (s : List Char) : splitDot s ≠ [] := by
  cases s with
  | nil => simp [splitDot]
  | cons c rest =>
    simp only [splitDot]
    by_cases h : c = '.'
    · simp [h]
    · simp only [h, if_false]
      cases splitDot rest <;> simp

lemma isPrefixOf_head_splitDot (p : List Char) :
    ∀ s : List Char, '.' ∉ p → p.isPrefixOf s → p.isPrefixOf ((splitDot s).headD []) := by
  induction p with
  | nil => intro s _ _; simp [List.isPrefixOf]
  | cons c p' ih =>
    intro s hdot hp
    cases s with
    | nil => simp [List.isPrefixOf] at hp
    | cons a s' =>
      simp only [List.isPrefixOf, Bool.and_eq_true, beq_iff_eq] at hp
      obtain ⟨hca, hp'⟩ := hp
      subst hca
      have hcdot : ¬ c = '.' := fun he => hdot (he ▸ List.mem_cons_self c p')
      simp only [splitDot, hcdot, if_false]
      cases hs : splitDot s' with
      | nil => exact absurd hs (splitDot_ne_nil s')
      | cons h t =>
        have ihh := ih s' (fun hm => hdot (List.mem_cons_of_mem _ hm)) hp'
        rw [hs] at ihh
        simp only [List.headD_cons] at ihh ⊢
        simp [List.isPrefixOf, ihh]

lemma dropWhile_append_last (p : Char → Bool) (c : Char) (hc : p c = false)
    (u : List Char) : ∃ w, List.dropWhile p (u ++ [c]) = w ++ [c] := by
  induction u with
  | nil => exact ⟨[], by simp [List.dropWhile_cons, hc]⟩
  | cons a u' ih =>
    by_cases ha : p a
    · obtain ⟨w, hw⟩ := ih
      exact ⟨w, by simp [List.dropWhile_cons, ha, hw]⟩
    · exact ⟨a :: u', by simp [List.dropWhile_cons, ha]⟩

lemma stripWith_cons_head (p : Char → Bool) (c : Char) (t : List Char)
    (hc : p c = false) : ∃ t', stripWith p (c :: t) = c :: t' := by
  unfold stripWith
  rw [List.dropWhile_cons]
  simp only [hc, Bool.false_eq_true, if_false]
  rw [show (c :: t).reverse = t.reverse ++ [c] by simp]
  obtain ⟨w, hw⟩ := dropWhile_append_last p c hc t.reverse
  rw [hw]
  exact ⟨w.reverse, by simp⟩

lemma digitsUnd_head_false (c : Char) (t : List Char) (h : c.isDigit = false) :
    digitsUnd (c :: t) = false := by
  cases t with
  | nil => simp [digitsUnd, h]
  | cons d rest => simp [digitsUnd, h]

lemma pyInt_head_not_valid (c : Char) (t : List Char)
    (hsp : intIsSpace c = false) (hdig : c.isDigit = false)
    (hplus : ¬ c = '+') (hminus : ¬ c = '-') : pyInt (c :: t) = none := by
  obtain ⟨t', ht'⟩ := stripWith_cons_head intIsSpace c t hsp
  unfold pyInt intStrip
  rw [ht']
  simp only [hplus, hminus, if_false]
  unfold digitsToNat
  rw [digitsUnd_head_false c t' hdig]
  rfl

lemma opencv_head (s : PyStr) (h : (lit "opencv-python").isPrefixOf s = true) :
    ∃ t, s = 'o' :: t := by
  cases s with
  | nil => simp [lit, List.isPrefixOf] at h
  | cons a t =>
    rw [show lit "opencv-python" = 'o' :: lit "pencv-python" from rfl] at h
    simp only [List.isPrefixOf, Bool.and_eq_true, beq_iff_eq] at h
    exact ⟨t, by rw [h.1]⟩

lemma pyInt_of_opencv (s : PyStr) (h : (lit "opencv-python").isPrefixOf s = true) :
    pyInt s = none := by
  obtain ⟨t, rfl⟩ := opencv_head s h
  exact pyInt_head_not_valid 'o' t (by decide) (by decide) (by decide) (by decide)

lemma not_mem_pyRemove_of_count_one (l : List PyStr) (x : PyStr)
    (h : l.count x = 1) : x ∉ pyRemove l x := by
  induction l with
  | nil => simp [pyRemove]
  | cons a t ih =>
    by_cases hax : a = x
    · subst hax
      have hz : t.count a = 0 := by simpa [List.count_cons] using h
      simpa [pyRemove] using (List.count_eq_zero).mp hz
    · have hone : t.count x = 1 := by simpa [List.count_cons, hax] using h
      simp only [pyRemove, hax, if_false]
      intro hmem
      rcases List.mem_cons.mp hmem with he | hmem'
      · exact hax he.symm
      · exact ih hone hmem'

/-- Evaluation of the reconciliation block once the installed version has
unpacked, an opencv entry has been found, its minimum version has split
into at least two segments and the two major segments have parsed. -/
lemma reconcile_eq_of_parsed
    (v : PyStr) (reqs : List PyStr) (major minor : PyStr) (rest : List PyStr)
    (base : PyStr) (rmaj rmin : PyStr) (rrest : List PyStr) (m rm : Int)
    (hv : splitDot v = major :: minor :: rest)
    (hf : findOpencv reqs = some base)
    (hb : splitDot ((splitGe base).getLastD []) = rmaj :: rmin :: rrest)
    (hm : pyInt major = some m) (hrm : pyInt rmaj = some rm) :
    reconcile (some v) reqs =
      if m < rm then
        match pyInt minor with
        | none => .error .valueError
        | some n =>
          match pyInt rmin with
          | none => .error .valueError
          | some rn =>
            if n < rn then
              .error (.runtimeError
                (lit "OpenCV >=" ++ rmaj ++ lit "." ++ rmin ++
                  lit " is required but " ++ v ++ lit " is installed"))
            else
              .ok (pyRemove reqs base,
                [lit "Removing OpenCV requirement since it was found"])
      else
        .ok (pyRemove reqs base,
          [lit "Removing OpenCV requirement since it was found"]) := by
  simp only [reconcile, hv, hf, hb, hm, hrm]

/-- C1: with the installed version unpacking into integer major and minor
parts and the first opencv-python entry carrying a parseable minimum
version after its ">=", the block raises the fatal RuntimeError exactly
when the installed major is strictly below the required major AND the
installed minor is strictly below the required minor; in every other such
case it completes, removing the entry and printing the message. -/
theorem C1_fatal_iff_both_older
    (v : PyStr) (reqs : List PyStr) (major minor : PyStr) (rest : List PyStr)
    (base : PyStr) (rmaj rmin : PyStr) (rrest : List PyStr) (m n rm rn : Int)
    (hv : splitDot v = major :: minor :: rest)
    (hf : findOpencv reqs = some base)
    (hb : splitDot ((splitGe base).getLastD []) = rmaj :: rmin :: rrest)
    (hm : pyInt major = some m) (hn : pyInt minor = some n)
    (hrm : pyInt rmaj = some rm) (hrn : pyInt rmin = some rn) :
    ((∃ msg, reconcile (some v) reqs = .error (.runtimeError msg)) ↔ (m < rm ∧ n < rn)) ∧
    (¬ (m < rm ∧ n < rn) →
      reconcile (some v) reqs =
        .ok (pyRemove reqs base,
          [lit "Removing OpenCV requirement since it was found"])) := by
  rw [reconcile_eq_of_parsed v reqs major minor rest base rmaj rmin rrest m rm
    hv hf hb hm hrm]
  simp only [hn, hrn]
  by_cases h1 : m < rm
  · by_cases h2 : n < rn
    · refine ⟨⟨fun _ => ⟨h1, h2⟩, fun _ =>
        ⟨lit "OpenCV >=" ++ rmaj ++ lit "." ++ rmin ++
          lit " is required but " ++ v ++ lit " is installed", ?_⟩⟩,
        fun hc => absurd ⟨h1, h2⟩ hc⟩
      simp [h1, h2]
    · simp [h1, h2]
  · simp [h1]

/-- C1 witness: the theorem applied to installed version 4.6.0 against the
requirement opencv-python>=4.5.0. -/
theorem C1_witness :
    ((∃ msg, reconcile (some (lit "4.6.0")) [lit "opencv-python>=4.5.0"] =
        .error (.runtimeError msg)) ↔ ((4 : Int) < 4 ∧ (6 : Int) < 5)) ∧
    (¬ ((4 : Int) < 4 ∧ (6 : Int) < 5) →
      reconcile (some (lit "4.6.0")) [lit "opencv-python>=4.5.0"] =
        .ok (pyRemove [lit "opencv-python>=4.5.0"] (lit "opencv-python>=4.5.0"),
          [lit "Removing OpenCV requirement since it was found"])) :=
  C1_fatal_iff_both_older (lit "4.6.0") [lit "opencv-python>=4.5.0"]
    (lit "4") (lit "6") [lit "0"] (lit "opencv-python>=4.5.0")
    (lit "4") (lit "5") [lit "0"] 4 6 4 5
    (by decide) (by decide) (by decide) (by decide) (by decide) (by decide) (by decide)

/-- C2 counterexample: with installed version 4.4.0 and requirement
opencv-python>=4.5.0 the installed tuple does NOT meet the declared
minimum, yet the entry is removed without any error. -/
theorem C2_counterexample :
    reconcile (some (lit "4.4.0")) [lit "opencv-python>=4.5.0"] =
      .ok ([], [lit "Removing OpenCV requirement since it was found"]) ∧
    specMeetsMinimum (lit "4.4.0") (lit "4.5.0") = false :=
  ⟨rfl, rfl⟩

/-- C2 amended: the entry is dropped exactly when the block completes
without error, that is, unless both the installed major and minor are
strictly below the required ones; in particular it can be dropped even
when the installed version does not meet the declared minimum. -/
theorem C2_amended_removed_iff
    (v : PyStr) (reqs : List PyStr) (major minor : PyStr) (rest : List PyStr)
    (base : PyStr) (rmaj rmin : PyStr) (rrest : List PyStr) (m n rm rn : Int)
    (hv : splitDot v = major :: minor :: rest)
    (hf : findOpencv reqs = some base)
    (hb : splitDot ((splitGe base).getLastD []) = rmaj :: rmin :: rrest)
    (hm : pyInt major = some m) (hn : pyInt minor = some n)
    (hrm : pyInt rmaj = some rm) (hrn : pyInt rmin = some rn) :
    reconcile (some v) reqs =
        .ok (pyRemove reqs base,
          [lit "Removing OpenCV requirement since it was found"]) ↔
      ¬ (m < rm ∧ n < rn) := by
  rw [reconcile_eq_of_parsed v reqs major minor rest base rmaj rmin rrest m rm
    hv hf hb hm hrm]
  simp only [hn, hrn]
  by_cases h1 : m < rm
  · by_cases h2 : n < rn
    · simp [h1, h2]
    · simp [h1, h2]
  · simp [h1]

/-- C2 witness: the amended theorem applied to installed version 4.4.0
against the requirement opencv-python>=4.5.0. -/
theorem C2_witness :
    reconcile (some (lit "4.4.0")) [lit "opencv-python>=4.5.0"] =
        .ok (pyRemove [lit "opencv-python>=4.5.0"] (lit "opencv-python>=4.5.0"),
          [lit "Removing OpenCV requirement since it was found"]) ↔
      ¬ ((4 : Int) < 4 ∧ (4 : Int) < 5) :=
  C2_amended_removed_iff (lit "4.4.0") [lit "opencv-python>=4.5.0"]
    (lit "4") (lit "4") [lit "0"] (lit "opencv-python>=4.5.0")
    (lit "4") (lit "5") [lit "0"] 4 4 4 5
    (by decide) (by decide) (by decide) (by decide) (by decide) (by decide) (by decide)

/-- C3 counterexample: with installed version 4.4.0 and the requirement
opencv-python>=4.5.0, no error of any kind is raised. -/
theorem C3_counterexample :
    ¬ ∃ e, reconcile (some (lit "4.4.0")) [lit "opencv-python>=4.5.0"] = .error e := by
  rintro ⟨e, he⟩
  rw [show reconcile (some (lit "4.4.0")) [lit "opencv-python>=4.5.0"] =
    .ok ([], [lit "Removing OpenCV requirement since it was found"]) from rfl] at he
  exact Except.noConfusion he

/-- C3 amended: with installed version 4.4.0 and the requirement
opencv-python>=4.5.0 the build does not raise; the entry is removed and
the informational message printed, because the fatal error fires only
when both major and minor are strictly below the required ones. -/
theorem C3_amended_no_error :
    reconcile (some (lit "4.4.0")) [lit "opencv-python>=4.5.0"] =
      .ok ([], [lit "Removing OpenCV requirement since it was found"]) :=
  rfl

/-- C6: when the native library is not importable, the block completes,
prints only the informational message, and returns the required-packages
list exactly as collected. -/
theorem C6_absent_unchanged (reqs : List PyStr) :
    reconcile none reqs =
      .ok (reqs, [lit "Installing OpenCV since no installation was found"]) :=
  rfl

/-- C7: with installed version 4.6.0 and the requirement list whose
opencv entry is exactly opencv-python>=4.5.0 (occurring once), no error
is raised and that specifier is removed from the final list. -/
theorem C7_adequate_removed (reqs : List PyStr)
    (hf : findOpencv reqs = some (lit "opencv-python>=4.5.0"))
    (hone : reqs.count (lit "opencv-python>=4.5.0") = 1) :
    reconcile (some (lit "4.6.0")) reqs =
      .ok (pyRemove reqs (lit "opencv-python>=4.5.0"),
        [lit "Removing OpenCV requirement since it was found"]) ∧
    (lit "opencv-python>=4.5.0") ∉ pyRemove reqs (lit "opencv-python>=4.5.0") := by
  constructor
  · rw [reconcile_eq_of_parsed (lit "4.6.0") reqs (lit "4") (lit "6") [lit "0"]
      (lit "opencv-python>=4.5.0") (lit "4") (lit "5") [lit "0"] 4 4
      (by decide) hf (by decide) (by decide) (by decide)]
    norm_num
  · exact not_mem_pyRemove_of_count_one reqs _ hone

/-- C7 witness: the theorem applied to the one-element requirement list. -/
theorem C7_witness :
    findOpencv [lit "opencv-python>=4.5.0"] = some (lit "opencv-python>=4.5.0") ∧
    ([lit "opencv-python>=4.5.0"] : List PyStr).count (lit "opencv-python>=4.5.0") = 1 ∧
    (reconcile (some (lit "4.6.0")) [lit "opencv-python>=4.5.0"] =
      .ok (pyRemove [lit "opencv-python>=4.5.0"] (lit "opencv-python>=4.5.0"),
        [lit "Removing OpenCV requirement since it was found"]) ∧
    (lit "opencv-python>=4.5.0") ∉
      pyRemove [lit "opencv-python>=4.5.0"] (lit "opencv-python>=4.5.0")) :=
  ⟨by decide, by decide, C7_adequate_removed [lit "opencv-python>=4.5.0"]
    (by decide) (by decide)⟩

/-- C9 counterexample: the installed minor segment "x" is not a decimal
integer string, yet with requirement opencv-python>=4.5.0 the comparison
short-circuits (installed major 4 is not below required major 4) and the
block completes without any exception, removing the entry. -/
theorem C9_counterexample :
    splitDot (lit "4.x") = [lit "4", lit "x"] ∧
    pyInt (lit "x") = none ∧
    reconcile (some (lit "4.x")) [lit "opencv-python>=4.5.0"] =
      .ok ([], [lit "Removing OpenCV requirement since it was found"]) :=
  ⟨rfl, rfl, rfl⟩

/-- C9 amended: only conversions the comparison actually evaluates can
crash the build.  For segments of ASCII characters (on which `pyInt`
models CPython's `int` exactly, PEP 515 underscores included), the block
raises the uncaught ValueError when the installed major or the derived
required major fails integer conversion, and also when the installed
major is strictly below the required major and the installed minor
fails, or the installed minor parses but the required minor fails.  If
both majors parse and the installed major is not strictly below the
required one, the minors are never examined (short-circuit of the
Python "and") and the block completes, removing the entry.  Finally a
matched specifier without a ">=" always crashes, since splitting it on
">=" leaves it whole and its first dot segment, which starts with
"opencv-python", cannot convert (or there are fewer than two
segments). -/
theorem C9_amended_crash_conditions :
    (∀ (v : PyStr) (reqs : List PyStr) (major minor : PyStr) (rest : List PyStr)
      (base rmaj rmin : PyStr) (rrest : List PyStr),
      splitDot v = major :: minor :: rest →
      findOpencv reqs = some base →
      splitDot ((splitGe base).getLastD []) = rmaj :: rmin :: rrest →
      ((pyInt major = none ∧ isAscii major = true) ∨
        (pyInt rmaj = none ∧ isAscii rmaj = true)) →
      reconcile (some v) reqs = .error .valueError) ∧
    (∀ (v : PyStr) (reqs : List PyStr) (major minor : PyStr) (rest : List PyStr)
      (base rmaj rmin : PyStr) (rrest : List PyStr) (m rm : Int),
      splitDot v = major :: minor :: rest →
      findOpencv reqs = some base →
      splitDot ((splitGe base).getLastD []) = rmaj :: rmin :: rrest →
      pyInt major = some m → pyInt rmaj = some rm → m < rm →
      pyInt minor = none → isAscii minor = true →
      reconcile (some v) reqs = .error .valueError) ∧
    (∀ (v : PyStr) (reqs : List PyStr) (major minor : PyStr) (rest : List PyStr)
      (base rmaj rmin : PyStr) (rrest : List PyStr) (m n rm : Int),
      splitDot v = major :: minor :: rest →
      findOpencv reqs = some base →
      splitDot ((splitGe base).getLastD []) = rmaj :: rmin :: rrest →
      pyInt major = some m → pyInt rmaj = some rm → m < rm →
      pyInt minor = some n → pyInt rmin = none → isAscii rmin = true →
      reconcile (some v) reqs = .error .valueError) ∧
    (∀ (v : PyStr) (reqs : List PyStr) (major minor : PyStr) (rest : List PyStr)
      (base rmaj rmin : PyStr) (rrest : List PyStr) (m rm : Int),
      splitDot v = major :: minor :: rest →
      findOpencv reqs = some base →
      splitDot ((splitGe base).getLastD []) = rmaj :: rmin :: rrest →
      pyInt major = some m → pyInt rmaj = some rm → ¬ m < rm →
      reconcile (some v) reqs =
        .ok (pyRemove reqs base,
          [lit "Removing OpenCV requirement since it was found"])) ∧
    (∀ (v : PyStr) (reqs : List PyStr) (major minor : PyStr) (rest : List PyStr)
      (base : PyStr),
      splitDot v = major :: minor :: rest →
      findOpencv reqs = some base →
      splitGe base = [base] →
      reconcile (some v) reqs = .error .valueError) := by
  refine ⟨?_, ?_, ?_, ?_, ?_⟩
  · intro v reqs major minor rest base rmaj rmin rrest hv hf hb hcrash
    rcases hcrash with ⟨hmaj, _⟩ | ⟨hrmaj, _⟩
    · simp only [reconcile, hv, hf, hb, hmaj]
    · cases hmaj : pyInt major with
      | none => simp only [reconcile, hv, hf, hb, hmaj]
      | some m => simp only [reconcile, hv, hf, hb, hmaj, hrmaj]
  · intro v reqs major minor rest base rmaj rmin rrest m rm hv hf hb hm hrm hlt
      hminor _
    rw [reconcile_eq_of_parsed v reqs major minor rest base rmaj rmin rrest m rm
      hv hf hb hm hrm]
    simp [hlt, hminor]
  · intro v reqs major minor rest base rmaj rmin rrest m n rm hv hf hb hm hrm hlt
      hminor hrminor _
    rw [reconcile_eq_of_parsed v reqs major minor rest base rmaj rmin rrest m rm
      hv hf hb hm hrm]
    simp [hlt, hminor, hrminor]
  · intro v reqs major minor rest base rmaj rmin rrest m rm hv hf hb hm hrm hlt
    rw [reconcile_eq_of_parsed v reqs major minor rest base rmaj rmin rrest m rm
      hv hf hb hm hrm]
    simp [hlt]
  · intro v reqs major minor rest base hv hf hno
    have hpred : (lit "opencv-python").isPrefixOf base = true := by
      have hfind : reqs.find? (fun req => (lit "opencv-python").isPrefixOf req) =
          some base := hf
      exact List.find?_some hfind
    have hlast : (splitGe base).getLastD [] = base := by rw [hno]; rfl
    cases hsd : splitDot base with
    | nil => exact absurd hsd (splitDot_ne_nil base)
    | cons x xs =>
      cases xs with
      | nil => simp only [reconcile, hv, hf, hlast, hsd]
      | cons y ys =>
        have hxpre : (lit "opencv-python").isPrefixOf x = true := by
          have hh := isPrefixOf_head_splitDot (lit "opencv-python") base
            (by decide) hpred
          rw [hsd] at hh
          simpa using hh
        have hxnone : pyInt x = none := pyInt_of_opencv x hxpre
        cases hmaj : pyInt major with
        | none => simp only [reconcile, hv, hf, hlast, hsd, hmaj]
        | some m => simp only [reconcile, hv, hf, hlast, hsd, hmaj, hxnone]

/-- C9 witness: the theorem's short-circuit, failing-minor and
no-operator parts applied to concrete inputs. -/
theorem C9_witness :
    reconcile (some (lit "4.x")) [lit "opencv-python>=4.5.0"] =
      .ok (pyRemove [lit "opencv-python>=4.5.0"] (lit "opencv-python>=4.5.0"),
        [lit "Removing OpenCV requirement since it was found"]) ∧
    reconcile (some (lit "3.x")) [lit "opencv-python>=4.5.0"] = .error .valueError ∧
    reconcile (some (lit "1.2")) [lit "opencv-python"] = .error .valueError :=
  ⟨C9_amended_crash_conditions.2.2.2.1 (lit "4.x") [lit "opencv-python>=4.5.0"]
      (lit "4") (lit "x") [] (lit "opencv-python>=4.5.0")
      (lit "4") (lit "5") [lit "0"] 4 4
      (by decide) (by decide) (by decide) (by decide) (by decide) (by decide),
    C9_amended_crash_conditions.2.1 (lit "3.x") [lit "opencv-python>=4.5.0"]
      (lit "3") (lit "x") [] (lit "opencv-python>=4.5.0")
      (lit "4") (lit "5") [lit "0"] 3 4
      (by decide) (by decide) (by decide) (by decide) (by decide) (by decide)
      (by decide) (by decide),
    C9_amended_crash_conditions.2.2.2.2 (lit "1.2") [lit "opencv-python"]
      (lit "1") (lit "2") [] (lit "opencv-python")
      (by decide) (by decide) (by decide)⟩

/-- C10 counterexample: with an installed version that has no dot, the
unpacking of the version string raises ValueError before the opencv
guard is reached, even though no entry starts with "opencv-python". -/
theorem C10_counterexample :
    findOpencv [lit "numpy"] = none ∧
    reconcile (some (lit "4")) [lit "numpy"] = .error .valueError :=
  ⟨rfl, rfl⟩

/-- C10 amended: when the installed version splits into at least two dot
segments and no collected entry starts with "opencv-python", the block
raises no error, prints nothing, and returns the list unchanged. -/
theorem C10_amended_no_entry_frame (v : PyStr) (reqs : List PyStr)
    (a b : PyStr) (rest : List PyStr)
    (hv : splitDot v = a :: b :: rest)
    (hf : findOpencv reqs = none) :
    reconcile (some v) reqs = .ok (reqs, []) := by
  simp [reconcile, hv, hf]

/-- C10 witness: the amended theorem applied to a concrete version and
requirement list. -/
theorem C10_witness :
    reconcile (some (lit "4.5.0")) [lit "numpy"] = .ok ([lit "numpy"], []) :=
  C10_amended_no_entry_frame (lit "4.5.0") [lit "numpy"] (lit "4") (lit "5")
    [lit "0"] (by decide) (by decide)
